import Mathlib

/-!
Shallow embedding of the cw-hyperlane mailbox core:
  - `src/packages/ownable/src/lib.rs` (two-phase ownership transfer)
  - `src/contracts/core/mailbox/src/execute.rs` (dispatch / process /
    set_default_ism / set_default_hook)

Persistent storage (cw_storage_plus `Item`s and the `DELIVERIES` map) is
modelled as one explicit state record `MailboxState`; external collaborators
(the CosmWasm `Api`, the ISM queries, the hook) are modelled as an oracle
record `Env`. Each entry point is a function
`Env → MailboxState → … → Except Error (new state)`, mirroring the Rust
`Result`-based control flow statement by statement. u8/u32 values are `Nat`
with reductions mod 2^8 / 2^32 where the Rust arithmetic can overflow.
-/

namespace CwHyperlane

/-- A bech32 account address, kept abstract as its string form
(`cosmwasm_std::Addr`). -/
abbrev Addr := String

/-- Raw bytes (`HexBinary` / `Vec<u8>`), as a list of byte values. -/
abbrev Bytes := List Nat

/-- `cosmwasm_std::StdError`, restricted to the variants the embedded code
produces: `generic_err` (used by hpl_ownable) and `not_found`
(an `Item::load` on an empty slot). -/
inductive StdError where
  | genericErr (msg : String)
  | notFound (what : String)
deriving DecidableEq, Repr

/-- The mailbox `ContractError` variants reachable from the embedded entry
points. `Std` wraps a propagated `StdError`; `Panicked` models a Rust panic
(`.expect(...)` / fatal misconfiguration), which in CosmWasm also aborts the
transaction. -/
inductive ContractError where
  | Std (e : StdError)
  | Unauthorized
  | InvalidAddressLength (len : Nat)
  | InvalidMessageVersion (version : Nat)
  | InvalidDestinationDomain (domain : Nat)
  | AlreadyDeliveredMessage
  | VerifyFailed
  | Panicked (msg : String)
deriving DecidableEq, Repr

/-- `hpl_interface::types::Message` (§3 of the spec): the wire message. -/
structure Message where
  version : Nat
  nonce : Nat
  origin_domain : Nat
  sender : Bytes
  dest_domain : Nat
  recipient : Bytes
  body : Bytes
deriving DecidableEq, Repr

/-- Big-endian 4-byte encoding of a u32 value. -/
def u32be (n : Nat) : Bytes :=
  [n / 2 ^ 24 % 256, n / 2 ^ 16 % 256, n / 2 ^ 8 % 256, n % 256]

/-- Modelled from the spec: `MessageCodec.encode` (§4.3) — the fixed-layout
concatenation of the fields in §3 order (the Rust impl lives in
`hpl_interface::types`, which is not under `src/`). -/
def Message.encode (m : Message) : Bytes :=
  [m.version % 256] ++ u32be m.nonce ++ u32be m.origin_domain ++ m.sender
    ++ u32be m.dest_domain ++ m.recipient ++ m.body

/-- Modelled from the spec: `Message::id()` — the deterministic content
digest over `encode(message)` (§4.3). The digest function itself (keccak256,
in `hpl_interface`, not under `src/`) is abstracted as the canonical encoding
bytes, which keeps the only property the spec demands of it: two messages with
identical fields always yield identical ids. -/
def Message.id (m : Message) : Bytes :=
  m.encode

/-- Mailbox `Config` (`state.rs`, reconstructed from its uses in
`execute.rs`): the hrp prefix for the local address format, the local domain,
and the optional defaults. -/
structure Config where
  hrp : String
  local_domain : Nat
  default_ism : Option Addr
  default_hook : Option Addr
deriving DecidableEq, Repr

/-- Modelled from the spec: `Config::get_default_ism` (`state.rs` is not
under `src/`). §4.5 step 6: use `default_security_module`, and a missing
module is a fatal misconfiguration, not a typed business error. -/
def Config.get_default_ism (c : Config) : Except ContractError Addr :=
  match c.default_ism with
  | some a => .ok a
  | none => .error (.Panicked "default_ism not set")

/-- A `DELIVERIES` entry (`state.rs`): the relayer that delivered the id. -/
structure Delivery where
  sender : Addr
deriving DecidableEq, Repr

/-- The whole persisted storage of the contract: mailbox items
(`CONFIG`, `NONCE`, `LATEST_DISPATCHED_ID`, `DELIVERIES`) together with the
hpl_ownable items (`OWNER`, `PENDING_OWNER`). `owner = none` models an
`OWNER` slot that was never written (so `OWNER.load` fails). -/
structure MailboxState where
  config : Config
  nonce : Nat
  latest_dispatched_id : Bytes
  deliveries : List (Bytes × Delivery)
  owner : Option Addr
  pending_owner : Option Addr
deriving DecidableEq, Repr

/-- `DELIVERIES.has(storage, id)`: existence of the key in the map. -/
def hasDelivery (ds : List (Bytes × Delivery)) (id : Bytes) : Bool :=
  ds.any (fun p => p.1 == id)

/-- `MessageInfo`: the caller and the funds it attached. -/
structure MessageInfo where
  sender : Addr
  funds : List Nat
deriving DecidableEq, Repr

/-- Lift a propagated `StdError` into `ContractError` (the `#[from]`
conversion applied by `?` in the mailbox). -/
def liftStd : Except StdError α → Except ContractError α
  | .ok a => .ok a
  | .error e => .error (.Std e)

/-! ## hpl_ownable (`src/packages/ownable/src/lib.rs`) -/

/-- `OWNER.load(storage)`: fails with a not-found `StdError` when the slot
was never initialized. -/
def get_owner (st : MailboxState) : Except StdError Addr :=
  match st.owner with
  | some o => .ok o
  | none => .error (.notFound "owner")

/-- `PENDING_OWNER.may_load(storage)`. -/
def get_pending_owner (st : MailboxState) : Except StdError (Option Addr) :=
  .ok st.pending_owner

/-- `hpl_ownable::initialize` (the name is a Lean keyword, hence `initOwner`
here): unconditionally `OWNER.save(storage, owner)`. -/
def initOwner (st : MailboxState) (owner : Addr) : Except StdError MailboxState :=
  .ok { st with owner := some owner }

/-- `hpl_ownable::init_ownership_transfer`. -/
def init_ownership_transfer (st : MailboxState) (sender next_owner : Addr) :
    Except StdError MailboxState := do
  let owner ← get_owner st
  if sender ≠ owner then
    .error (.genericErr "unauthorized")
  else if st.pending_owner.isSome then
    .error (.genericErr "ownership is transferring")
  else
    .ok { st with pending_owner := some next_owner }

/-- `hpl_ownable::revoke_ownership_transfer`. -/
def revoke_ownership_transfer (st : MailboxState) (sender : Addr) :
    Except StdError MailboxState := do
  let owner ← get_owner st
  if sender ≠ owner then
    .error (.genericErr "unauthorized")
  else if !st.pending_owner.isSome then
    .error (.genericErr "ownership is not transferring")
  else
    .ok { st with pending_owner := none }

/-- `hpl_ownable::claim_ownership`: the `PENDING_OWNER.exists` check followed
by `PENDING_OWNER.load`, collapsed into one match on the slot. -/
def claim_ownership (st : MailboxState) (sender : Addr) :
    Except StdError MailboxState :=
  match st.pending_owner with
  | none => .error (.genericErr "ownership is not transferring")
  | some p =>
    if sender ≠ p then
      .error (.genericErr "unauthorized")
    else
      .ok { st with owner := some sender, pending_owner := none }

/-! ## Mailbox (`src/contracts/core/mailbox/src/execute.rs`) -/

/-- `MAILBOX_VERSION` (the spec's `PROTOCOL_VERSION`; the constant lives in
the crate root, not under `src/` — its concrete value is irrelevant to every
property below, only equality with itself matters). -/
def MAILBOX_VERSION : Nat := 3

/-- External collaborators of the mailbox, as deterministic oracles:
the CosmWasm `Api` address validation, the bech32 normalization /
denormalization used by `DispatchMsg::to_msg` and `Message::recipient_addr`,
the `hpl_interface::hook::post_dispatch` helper, and the two ISM queries
(`ism::recipient`, `ism::verify`). Queries are side-effect-free from this
component's perspective (§6), so plain functions model them. -/
structure Env where
  addrValidate : String → Except StdError Addr
  senderBytes : Addr → Except ContractError Bytes
  recipientAddr : Bytes → String → Except ContractError Addr
  postDispatch : Addr → Bytes → Message → Option (List Nat) → Except ContractError Unit
  recipientIsm : Addr → Except ContractError (Option Addr)
  verify : Addr → Bytes → Message → Except ContractError Bool

/-- `DispatchMsg` (`hpl_interface::core::mailbox`): the dispatch request. -/
structure DispatchMsg where
  dest_domain : Nat
  recipient_addr : Bytes
  msg_body : Bytes
  hook : Option String
  metadata : Option Bytes
deriving DecidableEq, Repr

/-- Modelled from the spec: `DispatchMsg::get_hook_addr` (`hpl_interface`,
not under `src/`) — §4.4 step 2: the explicit hook when provided (validated
through the Api), else the configured default. -/
def DispatchMsg.get_hook_addr (dm : DispatchMsg) (env : Env)
    (defaultHook : Option Addr) : Except ContractError (Option Addr) :=
  match dm.hook with
  | some h => (liftStd (env.addrValidate h)).map some
  | none => .ok defaultHook

/-- Modelled from the spec: `DispatchMsg::to_msg` (`hpl_interface`, not under
`src/`) — §4.4 step 3: builds the `Message` from the given version, nonce and
origin domain, with `sender` the caller's normalized fixed-width bytes. -/
def DispatchMsg.to_msg (dm : DispatchMsg) (env : Env)
    (version nonce originDomain : Nat) (sender : Addr) :
    Except ContractError Message := do
  let sb ← env.senderBytes sender
  .ok { version := version, nonce := nonce, origin_domain := originDomain,
        sender := sb, dest_domain := dm.dest_domain,
        recipient := dm.recipient_addr, body := dm.msg_body }

/-- `execute::set_default_ism`. -/
def set_default_ism (env : Env) (st : MailboxState) (info : MessageInfo)
    (new_default_ism : String) : Except ContractError MailboxState := do
  let owner ← liftStd (get_owner st)
  if owner = info.sender then do
    let a ← liftStd (env.addrValidate new_default_ism)
    .ok { st with config := { st.config with default_ism := some a } }
  else
    .error .Unauthorized

/-- `execute::set_default_hook`. -/
def set_default_hook (env : Env) (st : MailboxState) (info : MessageInfo)
    (new_default_hook : String) : Except ContractError MailboxState := do
  let owner ← liftStd (get_owner st)
  if owner = info.sender then do
    let a ← liftStd (env.addrValidate new_default_hook)
    .ok { st with config := { st.config with default_hook := some a } }
  else
    .error .Unauthorized

/-- `execute::dispatch`. The `nonce + 1` is a Rust `u32` addition, so the
stored counter is reduced mod 2^32; the `.expect("default_hook not set")` is
a panic, which aborts the call. On success the returned pair is the new
state and the `message_id` set as the response data. -/
def dispatch (env : Env) (st : MailboxState) (info : MessageInfo)
    (dm : DispatchMsg) : Except ContractError (MailboxState × Bytes) := do
  let config := st.config
  let nonce := st.nonce
  if dm.recipient_addr.length ≤ 32 then do
    let hookOpt ← dm.get_hook_addr env config.default_hook
    match hookOpt with
    | none => .error (.Panicked "default_hook not set")
    | some hook => do
      let hook_metadata := dm.metadata
      let msg ← dm.to_msg env MAILBOX_VERSION nonce config.local_domain info.sender
      let message_id := msg.id
      let st1 := { st with nonce := (nonce + 1) % 2 ^ 32,
                           latest_dispatched_id := message_id }
      let _ ← env.postDispatch hook (hook_metadata.getD []) msg (some info.funds)
      .ok (st1, message_id)
  else
    .error (.InvalidAddressLength dm.recipient_addr.length)

/-- `execute::process`. The raw message argument is taken already decoded:
the source converts `HexBinary` to `Message` with an infallible `.into()`
(the codec lives in `hpl_interface`, outside `src/`). Mirrors the source
order: recipient denormalization, version check, destination-domain check,
ISM resolution (the `unwrap_or(config.get_default_ism())` argument is
evaluated eagerly, as in Rust), dedup check, delivery save, verify. -/
def process (env : Env) (st : MailboxState) (info : MessageInfo)
    (metadata : Bytes) (message : Message) : Except ContractError MailboxState := do
  let config := st.config
  let decoded_msg := message
  let recipient ← env.recipientAddr decoded_msg.recipient config.hrp
  if decoded_msg.version = MAILBOX_VERSION then
    if decoded_msg.dest_domain = config.local_domain then do
      let id := decoded_msg.id
      let recipIsm ← env.recipientIsm recipient
      let defaultIsm ← config.get_default_ism
      let ism := recipIsm.getD defaultIsm
      if hasDelivery st.deliveries id then
        .error .AlreadyDeliveredMessage
      else do
        let st1 := { st with deliveries := (id, ⟨info.sender⟩) :: st.deliveries }
        let verified ← env.verify ism metadata message
        if verified then
          .ok st1
        else
          .error .VerifyFailed
    else
      .error (.InvalidDestinationDomain decoded_msg.dest_domain)
  else
    .error (.InvalidMessageVersion decoded_msg.version)

/-! ## Transactional commit -/

/-- Modelled from the spec: the CosmWasm transactional execution model (§5) —
one entry-point invocation is one atomic unit, and a failure aborts the whole
operation together with its storage writes. `commit` turns an entry point's
`Except` outcome into the storage state the chain persists: the new state on
success, the untouched prior state on any error. -/
def commit (r : Except ε MailboxState) (st : MailboxState) : MailboxState :=
  match r with
  | .ok st' => st'
  | .error _ => st

/-- `commit` for entry points that also return response data. -/
def commitD (r : Except ε (MailboxState × α)) (st : MailboxState) : MailboxState :=
  match r with
  | .ok (st', _) => st'
  | .error _ => st

/-! ## Concrete fixtures (used by witnesses and counterexamples) -/

/-- A fully configured mailbox `Config` (the end-to-end scenario of §8 uses
local domain 26657). -/
def exConfig : Config :=
  { hrp := "osmo", local_domain := 26657, default_ism := some "ism",
    default_hook := some "hook" }

/-- A benign oracle environment: address validation succeeds verbatim, the
caller normalizes to 32 bytes of 7, no recipient-specific ISM, and the ISM
verifies exactly the metadata whose first byte is 1 (the shape of the
querier in the source's `test_process_query_handler`). -/
def exEnv : Env :=
  { addrValidate := fun s => .ok s,
    senderBytes := fun _ => .ok (List.replicate 32 7),
    recipientAddr := fun _ _ => .ok "recipient",
    postDispatch := fun _ _ _ _ => .ok (),
    recipientIsm := fun _ => .ok none,
    verify := fun _ md _ => .ok (md.headD 0 == 1) }

/-- An inbound message addressed to the local domain with the right version. -/
def exMsg : Message :=
  { version := 3, nonce := 5, origin_domain := 1, sender := List.replicate 32 1,
    dest_domain := 26657, recipient := List.replicate 32 2, body := [9, 9] }

/-- Initialized storage: empty ledgers, nonce 0, owner `alice`. -/
def exState : MailboxState :=
  { config := exConfig, nonce := 0, latest_dispatched_id := [],
    deliveries := [], owner := some "alice", pending_owner := none }

/-- A caller that is not the owner. -/
def exInfo : MessageInfo := { sender := "relayer", funds := [] }

/-- Storage whose delivery ledger already holds `exMsg`'s id. -/
def exStateDelivered : MailboxState :=
  { exState with deliveries := [(exMsg.id, ⟨"someone"⟩)] }

/-- Storage with the nonce counter at the u32 maximum. -/
def exStateMax : MailboxState := { exState with nonce := 2 ^ 32 - 1 }

/-- Storage with an ownership transfer to `bob` pending. -/
def exStatePending : MailboxState := { exState with pending_owner := some "bob" }

/-- A dispatch request with a 33-byte recipient. -/
def exDm33 : DispatchMsg :=
  { dest_domain := 2, recipient_addr := List.replicate 33 0, msg_body := [1],
    hook := none, metadata := none }

/-- A dispatch request with a 32-byte recipient. -/
def exDm32 : DispatchMsg :=
  { dest_domain := 2, recipient_addr := List.replicate 32 0, msg_body := [1],
    hook := none, metadata := none }

/-- The message `exDm32` builds under `exEnv` from `exState` (nonce 0). -/
def exM32 : Message :=
  { version := 3, nonce := 0, origin_domain := 26657,
    sender := List.replicate 32 7, dest_domain := 2,
    recipient := List.replicate 32 0, body := [1] }

/-- The message `exDm32` builds under `exEnv` from `exStateMax`. -/
def exM32max : Message := { exM32 with nonce := 2 ^ 32 - 1 }

deriving instance DecidableEq for Except

/-! ## Helper lemmas -/

theorem exBindOk (a : α) (f : α → Except ε β) :
    (Except.ok a : Except ε α) >>= f = f a := rfl

theorem exBindErr (e : ε) (f : α → Except ε β) :
    (Except.error e : Except ε α) >>= f = .error e := rfl

theorem commit_error (e : ε) (st : MailboxState)
    (r : Except ε MailboxState) (h : r = .error e) : commit r st = st := by
  rw [h]; rfl

theorem commitD_error (e : ε) (st : MailboxState)
    (r : Except ε (MailboxState × α)) (h : r = .error e) : commitD r st = st := by
  rw [h]; rfl

theorem bind_ok_iff (r : Except ε α) (f : α → Except ε β) (b : β) :
    r >>= f = .ok b ↔ ∃ a, r = .ok a ∧ f a = .ok b := by
  cases r with
  | ok a => simp [exBindOk]
  | error e => simp [exBindErr]

/-- The only storage write `process` performs is the delivery record for the
message id (keyed by the relayer), appended to the ledger. -/
theorem process_ok_inv (env : Env) (st : MailboxState) (info : MessageInfo)
    (metadata : Bytes) (msg : Message) (st' : MailboxState)
    (h : process env st info metadata msg = .ok st') :
    st' = { st with deliveries := (msg.id, ⟨info.sender⟩) :: st.deliveries } := by
  simp only [process, bind_ok_iff] at h
  obtain ⟨recip, -, h⟩ := h
  split at h
  · split at h
    · simp only [bind_ok_iff] at h
      obtain ⟨rism, -, dism, -, h⟩ := h
      split at h
      · exact absurd h (by simp)
      · simp only [bind_ok_iff] at h
        obtain ⟨verified, -, h⟩ := h
        split at h
        · simp only [Except.ok.injEq] at h
          exact h.symm
        · exact absurd h (by simp)
    · exact absurd h (by simp)
  · exact absurd h (by simp)

/-- Successful `dispatch` inverted: the built message carries the protocol
version, the pre-call nonce and the local domain; the new state advances the
nonce (u32 wrap) and records the id, which is also the returned data. -/
theorem dispatch_ok_inv (env : Env) (st : MailboxState) (info : MessageInfo)
    (dm : DispatchMsg) (st' : MailboxState) (rid : Bytes)
    (h : dispatch env st info dm = .ok (st', rid)) :
    ∃ m : Message,
      dm.to_msg env MAILBOX_VERSION st.nonce st.config.local_domain info.sender = .ok m ∧
      m.version = MAILBOX_VERSION ∧ m.nonce = st.nonce ∧
      m.origin_domain = st.config.local_domain ∧
      st' = { st with nonce := (st.nonce + 1) % 2 ^ 32,
                      latest_dispatched_id := m.id } ∧
      rid = m.id := by
  by_cases hlen : dm.recipient_addr.length ≤ 32
  · cases hhook : dm.get_hook_addr env st.config.default_hook with
    | error e => simp [dispatch, if_pos hlen, hhook, exBindErr] at h
    | ok hookOpt =>
      cases hookOpt with
      | none => simp [dispatch, if_pos hlen, hhook, exBindOk] at h
      | some hook =>
        cases hmsg : dm.to_msg env MAILBOX_VERSION st.nonce st.config.local_domain
            info.sender with
        | error e =>
          simp [dispatch, if_pos hlen, hhook, hmsg, exBindOk, exBindErr] at h
        | ok m =>
          cases hpd : env.postDispatch hook (dm.metadata.getD []) m
              (some info.funds) with
          | error e =>
            simp [dispatch, if_pos hlen, hhook, hmsg, hpd, exBindOk,
              exBindErr] at h
          | ok u =>
            simp only [dispatch, if_pos hlen, hhook, hmsg, hpd, exBindOk,
              Except.ok.injEq, Prod.mk.injEq] at h
            obtain ⟨hst, hrid⟩ := h
            have hfields :
                m.version = MAILBOX_VERSION ∧ m.nonce = st.nonce ∧
                m.origin_domain = st.config.local_domain := by
              cases hsb : env.senderBytes info.sender with
              | error e => simp [DispatchMsg.to_msg, hsb, exBindErr] at hmsg
              | ok sb =>
                simp only [DispatchMsg.to_msg, hsb, exBindOk,
                  Except.ok.injEq] at hmsg
                rw [← hmsg]
                exact ⟨rfl, rfl, rfl⟩
            exact ⟨m, rfl, hfields.1, hfields.2.1, hfields.2.2,
              hst.symm, hrid.symm⟩
  · simp [dispatch, if_neg hlen] at h

/-- The only storage write `set_default_ism` performs is the config's
`default_ism` field. -/
theorem set_default_ism_ok_inv (env : Env) (st : MailboxState)
    (info : MessageInfo) (s : String) (st' : MailboxState)
    (h : set_default_ism env st info s = .ok st') :
    ∃ a, st' = { st with config := { st.config with default_ism := some a } } := by
  simp only [set_default_ism, bind_ok_iff] at h
  obtain ⟨owner, -, h⟩ := h
  split at h
  · simp only [bind_ok_iff] at h
    obtain ⟨a, -, h⟩ := h
    simp only [Except.ok.injEq] at h
    exact ⟨a, h.symm⟩
  · exact absurd h (by simp)

/-- The only storage write `set_default_hook` performs is the config's
`default_hook` field. -/
theorem set_default_hook_ok_inv (env : Env) (st : MailboxState)
    (info : MessageInfo) (s : String) (st' : MailboxState)
    (h : set_default_hook env st info s = .ok st') :
    ∃ a, st' = { st with config := { st.config with default_hook := some a } } := by
  simp only [set_default_hook, bind_ok_iff] at h
  obtain ⟨owner, -, h⟩ := h
  split at h
  · simp only [bind_ok_iff] at h
    obtain ⟨a, -, h⟩ := h
    simp only [Except.ok.injEq] at h
    exact ⟨a, h.symm⟩
  · exact absurd h (by simp)

/-- Successful ownership operations only touch the `owner` / `pending_owner`
slots. -/
theorem ownable_ok_inv (st st' : MailboxState) (sender next o : Addr) :
    (initOwner st o = .ok st' → st' = { st with owner := some o }) ∧
    (init_ownership_transfer st sender next = .ok st' →
      st' = { st with pending_owner := some next }) ∧
    (revoke_ownership_transfer st sender = .ok st' →
      st' = { st with pending_owner := none }) ∧
    (claim_ownership st sender = .ok st' →
      st' = { st with owner := some sender, pending_owner := none }) := by
  refine ⟨?_, ?_, ?_, ?_⟩
  · intro h
    simp only [initOwner, Except.ok.injEq] at h
    exact h.symm
  · intro h
    simp only [init_ownership_transfer, bind_ok_iff] at h
    obtain ⟨owner, -, h⟩ := h
    split at h
    · exact absurd h (by simp)
    · split at h
      · exact absurd h (by simp)
      · simp only [Except.ok.injEq] at h
        exact h.symm
  · intro h
    simp only [revoke_ownership_transfer, bind_ok_iff] at h
    obtain ⟨owner, -, h⟩ := h
    split at h
    · exact absurd h (by simp)
    · split at h
      · exact absurd h (by simp)
      · simp only [Except.ok.injEq] at h
        exact h.symm
  · intro h
    unfold claim_ownership at h
    split at h
    · exact absurd h (by simp)
    · split at h
      · exact absurd h (by simp)
      · simp only [Except.ok.injEq] at h
        exact h.symm

/-! ## Claims -/

/-- **C1** (counterexample): the claim asserts that after `process` fails with
`VerificationFailed`, the delivery record remains persisted so a later call
with the same message id fails `AlreadyDeliveredMessage`. On the transactional
semantics the spec itself fixes in §5 (every failure aborts the whole
operation with no partial state change), this is false: here the first call
fails `VerifyFailed`, the committed state is unchanged, and a second call with
different metadata is verified afresh and succeeds instead of failing
`AlreadyDeliveredMessage`. -/
theorem verifyFailed_then_redeliverable_cex :
    process exEnv exState exInfo [0] exMsg = .error .VerifyFailed ∧
    commit (process exEnv exState exInfo [0] exMsg) exState = exState ∧
    process exEnv (commit (process exEnv exState exInfo [0] exMsg) exState)
        exInfo [1] exMsg ≠ .error .AlreadyDeliveredMessage ∧
    (process exEnv (commit (process exEnv exState exInfo [0] exMsg) exState)
        exInfo [1] exMsg).isOk = true :=
  ⟨rfl, rfl, by decide, rfl⟩

/-- **C1** (amended): if `process` reaches the verification step and the
security module's `verify` returns false, the operation fails `VerifyFailed`,
and — the whole operation being one atomic unit — the delivery record written
before verification is rolled back: the committed state equals the pre-call
state, so the message id is not permanently consumed. -/
theorem verifyFailed_reverts_delivery (env : Env) (st : MailboxState)
    (info : MessageInfo) (metadata : Bytes) (msg : Message)
    (recip : Addr) (rism : Option Addr) (dism : Addr)
    (hrecip : env.recipientAddr msg.recipient st.config.hrp = .ok recip)
    (hver : msg.version = MAILBOX_VERSION)
    (hdom : msg.dest_domain = st.config.local_domain)
    (hism : env.recipientIsm recip = .ok rism)
    (hdefault : st.config.get_default_ism = .ok dism)
    (hdup : hasDelivery st.deliveries msg.id = false)
    (hverify : env.verify (rism.getD dism) metadata msg = .ok false) :
    process env st info metadata msg = .error .VerifyFailed ∧
    commit (process env st info metadata msg) st = st := by
  have hp : process env st info metadata msg = .error .VerifyFailed := by
    simp [process, hrecip, hver, hdom, hism, hdefault, hdup, hverify, exBindOk]
  exact ⟨hp, by rw [hp]; rfl⟩

/-- **C1** (witness for the amended theorem). -/
theorem verifyFailed_reverts_delivery_witness :
    process exEnv exState exInfo [0] exMsg = .error .VerifyFailed ∧
    commit (process exEnv exState exInfo [0] exMsg) exState = exState :=
  verifyFailed_reverts_delivery exEnv exState exInfo [0] exMsg
    "recipient" none "ism" rfl rfl rfl rfl rfl rfl rfl

/-- **C2**: every entry point of the component — `set_default_ism`,
`set_default_hook`, `dispatch`, `process` and the ownership operations — that
returns an error leaves the committed persisted state exactly as it was
before the call (atomicity, §5). -/
theorem failed_op_leaves_state_unchanged (env : Env) (st : MailboxState)
    (info : MessageInfo) (s1 s2 : String) (dm : DispatchMsg) (metadata : Bytes)
    (msg : Message) (sender next : Addr) :
    (∀ e, set_default_ism env st info s1 = .error e →
      commit (set_default_ism env st info s1) st = st) ∧
    (∀ e, set_default_hook env st info s2 = .error e →
      commit (set_default_hook env st info s2) st = st) ∧
    (∀ e, dispatch env st info dm = .error e →
      commitD (dispatch env st info dm) st = st) ∧
    (∀ e, process env st info metadata msg = .error e →
      commit (process env st info metadata msg) st = st) ∧
    (∀ e, init_ownership_transfer st sender next = .error e →
      commit (init_ownership_transfer st sender next) st = st) ∧
    (∀ e, revoke_ownership_transfer st sender = .error e →
      commit (revoke_ownership_transfer st sender) st = st) ∧
    (∀ e, claim_ownership st sender = .error e →
      commit (claim_ownership st sender) st = st) :=
  ⟨fun e h => commit_error e st _ h,
   fun e h => commit_error e st _ h,
   fun e h => commitD_error e st _ h,
   fun e h => commit_error e st _ h,
   fun e h => commit_error e st _ h,
   fun e h => commit_error e st _ h,
   fun e h => commit_error e st _ h⟩

/-- **C2** (witness): an unauthorized `set_default_ism` fails and the
committed state is untouched. -/
theorem failed_op_leaves_state_unchanged_witness :
    commit (set_default_ism exEnv exState exInfo "newism") exState = exState :=
  (failed_op_leaves_state_unchanged exEnv exState exInfo "newism" "newhook"
    exDm32 [] exMsg "a" "b").1 .Unauthorized rfl

/-- **C3**: a message whose id is already in the delivery ledger (and that
passes the preceding decode/recipient/version/domain checks and ISM
resolution) makes `process` fail `AlreadyDeliveredMessage` — for every
possible `verify` oracle, since verification is never consulted for a
duplicate id. -/
theorem duplicate_id_rejected_regardless_of_verify (env : Env)
    (v : Addr → Bytes → Message → Except ContractError Bool)
    (st : MailboxState) (info : MessageInfo) (metadata : Bytes) (msg : Message)
    (recip : Addr) (rism : Option Addr) (dism : Addr)
    (hrecip : env.recipientAddr msg.recipient st.config.hrp = .ok recip)
    (hver : msg.version = MAILBOX_VERSION)
    (hdom : msg.dest_domain = st.config.local_domain)
    (hism : env.recipientIsm recip = .ok rism)
    (hdefault : st.config.get_default_ism = .ok dism)
    (hdup : hasDelivery st.deliveries msg.id = true) :
    process { env with verify := v } st info metadata msg =
      .error .AlreadyDeliveredMessage := by
  simp [process, hrecip, hver, hdom, hism, hdefault, hdup, exBindOk]

/-- **C3** (witness): even under a verifier that accepts everything, the
duplicate id is rejected. -/
theorem duplicate_id_rejected_regardless_of_verify_witness :
    process { exEnv with verify := fun _ _ _ => .ok true } exStateDelivered
      exInfo [1] exMsg = .error .AlreadyDeliveredMessage :=
  duplicate_id_rejected_regardless_of_verify exEnv (fun _ _ _ => .ok true)
    exStateDelivered exInfo [1] exMsg "recipient" none "ism"
    rfl rfl rfl rfl rfl rfl

/-- **C4**: `dispatch` fails `InvalidAddressLength{len}` whenever the
recipient address is longer than 32 bytes, and a recipient of length ≤ 32
passes this check: with the hook resolved, the message built and the hook
call succeeding, the dispatch completes. -/
theorem dispatch_recipient_length_check (env : Env) (st : MailboxState)
    (info : MessageInfo) (dm : DispatchMsg) :
    (32 < dm.recipient_addr.length →
      dispatch env st info dm =
        .error (.InvalidAddressLength dm.recipient_addr.length)) ∧
    (dm.recipient_addr.length ≤ 32 →
      ∀ hk m, dm.get_hook_addr env st.config.default_hook = .ok (some hk) →
        dm.to_msg env MAILBOX_VERSION st.nonce st.config.local_domain
          info.sender = .ok m →
        env.postDispatch hk (dm.metadata.getD []) m (some info.funds) = .ok () →
        dispatch env st info dm =
          .ok ({ st with nonce := (st.nonce + 1) % 2 ^ 32,
                         latest_dispatched_id := m.id }, m.id)) := by
  constructor
  · intro hlen
    simp [dispatch, if_neg (Nat.not_le.mpr hlen)]
  · intro hlen hk m hhook hmsg hpd
    simp [dispatch, if_pos hlen, hhook, hmsg, hpd, exBindOk]

/-- **C4** (witness): a 33-byte recipient yields `InvalidAddressLength 33`,
a 32-byte recipient dispatches successfully. -/
theorem dispatch_recipient_length_check_witness :
    dispatch exEnv exState exInfo exDm33 =
      .error (.InvalidAddressLength 33) ∧
    dispatch exEnv exState exInfo exDm32 =
      .ok ({ exState with nonce := (exState.nonce + 1) % 2 ^ 32,
                          latest_dispatched_id := exM32.id }, exM32.id) :=
  ⟨(dispatch_recipient_length_check exEnv exState exInfo exDm33).1 (by decide),
   (dispatch_recipient_length_check exEnv exState exInfo exDm32).2 (by decide)
     "hook" exM32 rfl rfl rfl⟩

/-- **C5** (counterexample): the claim says that after every successful
dispatch starting from nonce counter `n`, the counter equals `n + 1`. At the
u32 maximum `n = 2^32 - 1` the dispatch still succeeds but the stored counter
wraps to 0, not `n + 1`. -/
theorem dispatch_nonce_succ_cex :
    (dispatch exEnv exStateMax exInfo exDm32).isOk = true ∧
    (commitD (dispatch exEnv exStateMax exInfo exDm32) exStateMax).nonce ≠
      exStateMax.nonce + 1 ∧
    (commitD (dispatch exEnv exStateMax exInfo exDm32) exStateMax).nonce = 0 :=
  ⟨rfl, by decide, rfl⟩

/-- **C5** (amended): for every successful dispatch starting from nonce
counter `n`, the dispatched message has `nonce = n`,
`version = MAILBOX_VERSION` and `origin_domain = local_domain`; afterwards
the counter equals `(n + 1) mod 2^32` (that is `n + 1` except at the u32
boundary), `latest_dispatched_id` equals that message's id, and the id is the
operation's returned result. -/
theorem dispatch_success_spec (env : Env) (st : MailboxState)
    (info : MessageInfo) (dm : DispatchMsg) (st' : MailboxState) (rid : Bytes)
    (m : Message)
    (h : dispatch env st info dm = .ok (st', rid))
    (hm : dm.to_msg env MAILBOX_VERSION st.nonce st.config.local_domain
      info.sender = .ok m) :
    m.version = MAILBOX_VERSION ∧ m.nonce = st.nonce ∧
    m.origin_domain = st.config.local_domain ∧
    st'.nonce = (st.nonce + 1) % 2 ^ 32 ∧
    st'.latest_dispatched_id = m.id ∧ rid = m.id := by
  obtain ⟨m', hm', h1, h2, h3, hst, hrid⟩ := dispatch_ok_inv env st info dm st' rid h
  rw [hm] at hm'
  cases hm'
  exact ⟨h1, h2, h3, by rw [hst], by rw [hst], hrid⟩

/-- **C5** (witness for the amended theorem). -/
theorem dispatch_success_spec_witness :
    exM32.version = MAILBOX_VERSION ∧ exM32.nonce = exState.nonce ∧
    exM32.origin_domain = exState.config.local_domain ∧
    ({ exState with nonce := 1, latest_dispatched_id := exM32.id } :
      MailboxState).nonce = (exState.nonce + 1) % 2 ^ 32 ∧
    ({ exState with nonce := 1, latest_dispatched_id := exM32.id } :
      MailboxState).latest_dispatched_id = exM32.id ∧
    exM32.id = exM32.id :=
  dispatch_success_spec exEnv exState exInfo exDm32
    { exState with nonce := 1, latest_dispatched_id := exM32.id } exM32.id exM32
    (by decide) rfl

/-- **C6**: `init_ownership_transfer` fails `unauthorized` when the caller is
not the owner, fails `ownership is transferring` when the caller is the owner
but a transfer is already pending, and succeeds exactly when the caller is
the owner and no transfer is pending, setting `pending_owner` to the next
owner; in both failure cases the committed state is unchanged. -/
theorem init_transfer_spec (st : MailboxState) (sender next o : Addr)
    (hown : st.owner = some o) :
    (sender ≠ o →
      init_ownership_transfer st sender next =
        .error (.genericErr "unauthorized") ∧
      commit (init_ownership_transfer st sender next) st = st) ∧
    (sender = o → ∀ p, st.pending_owner = some p →
      init_ownership_transfer st sender next =
        .error (.genericErr "ownership is transferring") ∧
      commit (init_ownership_transfer st sender next) st = st) ∧
    (sender = o → st.pending_owner = none →
      init_ownership_transfer st sender next =
        .ok { st with pending_owner := some next }) := by
  refine ⟨?_, ?_, ?_⟩
  · intro hne
    have hp : init_ownership_transfer st sender next =
        .error (.genericErr "unauthorized") := by
      simp [init_ownership_transfer, get_owner, hown, exBindOk, hne]
    exact ⟨hp, by rw [hp]; rfl⟩
  · intro he p hp
    have hq : init_ownership_transfer st sender next =
        .error (.genericErr "ownership is transferring") := by
      simp [init_ownership_transfer, get_owner, hown, exBindOk, he, hp]
    exact ⟨hq, by rw [hq]; rfl⟩
  · intro he hp
    simp [init_ownership_transfer, get_owner, hown, exBindOk, he, hp]

/-- **C6** (witness): the owner starts a transfer to `bob`. -/
theorem init_transfer_spec_witness :
    init_ownership_transfer exState "alice" "bob" =
      .ok { exState with pending_owner := some "bob" } :=
  (init_transfer_spec exState "alice" "bob" "alice" rfl).2.2 rfl rfl

/-- **C7**: `claim_ownership` fails `ownership is not transferring` when no
transfer is pending, fails `unauthorized` when the caller differs from the
pending owner, and succeeds exactly when the caller is the pending owner,
setting `owner` to the caller and clearing `pending_owner`; in both failure
cases the committed state is unchanged. -/
theorem claim_ownership_spec (st : MailboxState) (sender : Addr) :
    (st.pending_owner = none →
      claim_ownership st sender =
        .error (.genericErr "ownership is not transferring") ∧
      commit (claim_ownership st sender) st = st) ∧
    (∀ p, st.pending_owner = some p → sender ≠ p →
      claim_ownership st sender = .error (.genericErr "unauthorized") ∧
      commit (claim_ownership st sender) st = st) ∧
    (st.pending_owner = some sender →
      claim_ownership st sender =
        .ok { st with owner := some sender, pending_owner := none }) := by
  refine ⟨?_, ?_, ?_⟩
  · intro hp
    have hq : claim_ownership st sender =
        .error (.genericErr "ownership is not transferring") := by
      simp [claim_ownership, hp]
    exact ⟨hq, by rw [hq]; rfl⟩
  · intro p hp hne
    have hq : claim_ownership st sender = .error (.genericErr "unauthorized") := by
      simp [claim_ownership, hp, hne]
    exact ⟨hq, by rw [hq]; rfl⟩
  · intro hp
    simp [claim_ownership, hp]

/-- **C7** (witness): the pending owner claims. -/
theorem claim_ownership_spec_witness :
    claim_ownership exStatePending "bob" =
      .ok { exStatePending with owner := some "bob", pending_owner := none } :=
  (claim_ownership_spec exStatePending "bob").2.2 rfl

/-- **C8**: the configured `local_domain` is preserved by every operation:
`set_default_ism`, `set_default_hook`, `dispatch`, `process` and all
ownership operations leave it unchanged in the committed state, whether the
operation succeeds or fails. -/
theorem local_domain_preserved (env : Env) (st : MailboxState)
    (info : MessageInfo) (s1 s2 : String) (dm : DispatchMsg) (metadata : Bytes)
    (msg : Message) (sender next o : Addr) :
    (commit (set_default_ism env st info s1) st).config.local_domain =
      st.config.local_domain ∧
    (commit (set_default_hook env st info s2) st).config.local_domain =
      st.config.local_domain ∧
    (commitD (dispatch env st info dm) st).config.local_domain =
      st.config.local_domain ∧
    (commit (process env st info metadata msg) st).config.local_domain =
      st.config.local_domain ∧
    (commit (initOwner st o) st).config.local_domain = st.config.local_domain ∧
    (commit (init_ownership_transfer st sender next) st).config.local_domain =
      st.config.local_domain ∧
    (commit (revoke_ownership_transfer st sender) st).config.local_domain =
      st.config.local_domain ∧
    (commit (claim_ownership st sender) st).config.local_domain =
      st.config.local_domain := by
  refine ⟨?_, ?_, ?_, ?_, ?_, ?_, ?_, ?_⟩
  · cases h : set_default_ism env st info s1 with
    | error e => rfl
    | ok st' =>
      obtain ⟨a, ha⟩ := set_default_ism_ok_inv env st info s1 st' h
      simp [commit, ha]
  · cases h : set_default_hook env st info s2 with
    | error e => rfl
    | ok st' =>
      obtain ⟨a, ha⟩ := set_default_hook_ok_inv env st info s2 st' h
      simp [commit, ha]
  · cases h : dispatch env st info dm with
    | error e => rfl
    | ok p =>
      obtain ⟨st', rid⟩ := p
      obtain ⟨m, -, -, -, -, hst, -⟩ := dispatch_ok_inv env st info dm st' rid h
      simp [commitD, hst]
  · cases h : process env st info metadata msg with
    | error e => rfl
    | ok st' =>
      have hst := process_ok_inv env st info metadata msg st' h
      simp [commit, hst]
  · cases h : initOwner st o with
    | error e => rfl
    | ok st' =>
      have hst := (ownable_ok_inv st st' sender next o).1 h
      simp [commit, hst]
  · cases h : init_ownership_transfer st sender next with
    | error e => rfl
    | ok st' =>
      have hst := (ownable_ok_inv st st' sender next o).2.1 h
      simp [commit, hst]
  · cases h : revoke_ownership_transfer st sender with
    | error e => rfl
    | ok st' =>
      have hst := (ownable_ok_inv st st' sender next o).2.2.1 h
      simp [commit, hst]
  · cases h : claim_ownership st sender with
    | error e => rfl
    | ok st' =>
      have hst := (ownable_ok_inv st st' sender next o).2.2.2 h
      simp [commit, hst]

/-- **C9**: `dispatch` stores the nonce counter as a u32 sum: from every
counter `n` a successful dispatch stores `(n + 1) mod 2^32`, which is `n + 1`
for `n < 2^32 - 1` but wraps to 0 at `n = 2^32 - 1`, so the counter is not
strictly increasing across that boundary. -/
theorem nonce_u32_wraparound (env : Env) (st : MailboxState)
    (info : MessageInfo) (dm : DispatchMsg) (st' : MailboxState) (rid : Bytes)
    (h : dispatch env st info dm = .ok (st', rid)) :
    st'.nonce = (st.nonce + 1) % 2 ^ 32 ∧
    (st.nonce < 2 ^ 32 - 1 → st'.nonce = st.nonce + 1) ∧
    (st.nonce = 2 ^ 32 - 1 → st'.nonce = 0 ∧ st'.nonce < st.nonce) := by
  obtain ⟨m, -, -, -, -, hst, -⟩ := dispatch_ok_inv env st info dm st' rid h
  have hn : st'.nonce = (st.nonce + 1) % 2 ^ 32 := by rw [hst]
  refine ⟨hn, fun hlt => ?_, fun heq => ?_⟩
  · rw [hn]; omega
  · rw [hn, heq]; constructor <;> decide

/-- **C9** (witness): a successful dispatch at the u32 maximum stores 0. -/
theorem nonce_u32_wraparound_witness :
    ({ exStateMax with nonce := 0, latest_dispatched_id := exM32max.id } :
      MailboxState).nonce = 0 ∧
    ({ exStateMax with nonce := 0, latest_dispatched_id := exM32max.id } :
      MailboxState).nonce < exStateMax.nonce :=
  (nonce_u32_wraparound exEnv exStateMax exInfo exDm32
    { exStateMax with nonce := 0, latest_dispatched_id := exM32max.id }
    exM32max.id (by decide)).2.2 rfl

/-- **C10**: the ownership `initialize` performs no already-initialized
check: for every state — in particular one whose owner is already set — it
succeeds, replaces the stored owner with the new address, and leaves
`pending_owner` (and everything else) untouched. -/
theorem initOwner_no_guard (st : MailboxState) (o : Addr) :
    initOwner st o = .ok { st with owner := some o } ∧
    ({ st with owner := some o } : MailboxState).pending_owner =
      st.pending_owner :=
  ⟨rfl, rfl⟩

end CwHyperlane
